import Mathlib

/-!
# Verification of the open-pdf-creator print-job capture and delivery pipeline

Shallow embedding of the print-job pipeline of `OpenAEC-Foundation/open-pdf-creator`:

* the Job Producer (CUPS backend), `src/open_pdf_creator/printer/linux/cups_backend.py`
  (`process_job`, `notify_gui`, `start_gui_with_job`, `main`);
* the Job Consumer, `src/open_pdf_creator/service/print_handler.py`
  (`PrintJob.from_dict`, `PrintJobHandler.start`, `_load_pending_jobs`,
  `_save_pending_jobs`, `mark_job_processed`, `_handle_connection`,
  `_unix_listener` / `_tcp_listener`).

Modelling conventions:

* The filesystem is a map from path strings to file contents.  A payload file
  holds raw bytes (`FileData.bytes`); a file written by Python's `json.dump`
  and read back by `json.load` is modelled as holding its JSON value
  (`FileData.json`) — the stdlib round trip is modelled abstractly instead of
  re-proving the stdlib serializer.  A file the producer or consumer fails to
  read as JSON is a `FileData.bytes` file (its `json.load` raises
  `JSONDecodeError`, which both programs catch).
* Socket byte streams are lists of `recv` chunks (`List (List Nat)`, byte
  values); an exhausted chunk list models the peer closing the connection.
  `json.loads` on the wire is modelled by a concrete character-level parser
  (`pyJsonLoads`) for the JSON fragment the wire schema uses: objects, arrays,
  strings without escape sequences, integers, booleans and null.  UTF-8
  decoding is modelled for byte streams in the ASCII range; the producer's
  own messages are pure ASCII because `json.dumps` escapes non-ASCII by
  default.
* Characters are Lean `Char`; Python's `str.isalnum` is modelled by
  `Char.isAlphanum`, which is faithful on ASCII titles (Python additionally
  accepts many non-ASCII letters and digits; such titles are outside this
  embedding and theorems about the sanitizer carry an ASCII hypothesis).
* Best-effort steps that no claim observes (directory creation, `chmod`,
  `chown`, process spawning, logging) are omitted; in the source each is
  wrapped in its own `try/except` and cannot change any modelled outcome.
* `pathlib.Path` construction on the well-formed paths this pipeline builds
  is modelled as the raw path string.
-/

/-- JSON values, as produced by Python's `json` module on the wire schema:
objects, arrays, strings, integers, booleans, null. -/
inductive Json where
  | str : String → Json
  | int : Int → Json
  | bool : Bool → Json
  | null : Json
  | arr : List Json → Json
  | obj : List (String × Json) → Json

/-- Whether a JSON value is an object. -/
def Json.isObj : Json → Bool
  | .obj _ => true
  | _ => false

/-- Lookup in a JSON object, modelling Python `dict.get`: when a key occurs
several times in the source text, `json.loads` keeps the last binding. -/
def pyDictGet (d : List (String × Json)) (k : String) : Option Json :=
  d.reverse.lookup k

/-- The whitespace characters `json.loads` skips between tokens
(space, tab, newline, carriage return). -/
def isJsonWs (c : Char) : Bool :=
  c = ' ' || c = '\t' || c = '\n' || c = '\r'

/-- Skip JSON inter-token whitespace. -/
def skipJsonWs (cs : List Char) : List Char :=
  cs.dropWhile isJsonWs

/-- Parse the remainder of a JSON string literal after the opening quote.
Escape sequences are outside the modelled fragment (the wire messages this
pipeline produces contain none). -/
def parseStrBody : List Char → Option (String × List Char)
  | [] => none
  | c :: cs =>
    if c = '\"' then some ("", cs)
    else if c = '\\' then none
    else
      match parseStrBody cs with
      | some (s, r) => some (⟨c :: s.data⟩, r)
      | none => none

/-- Decimal digits to a natural number. -/
def natOfDigits (ds : List Char) : Nat :=
  ds.foldl (fun a c => a * 10 + (c.toNat - 48)) 0

/-- Parse a nonempty run of decimal digits. -/
def parseNatLit (cs : List Char) : Option (Nat × List Char) :=
  let ds := cs.takeWhile Char.isDigit
  if ds = [] then none else some (natOfDigits ds, cs.dropWhile Char.isDigit)

/-- Parse an optionally signed integer literal. -/
def parseIntLit : List Char → Option (Int × List Char)
  | '-' :: cs =>
    match parseNatLit cs with
    | some (n, r) => some (-(n : Int), r)
    | none => none
  | cs =>
    match parseNatLit cs with
    | some (n, r) => some ((n : Int), r)
    | none => none

mutual

/-- Recursive-descent parser for the modelled JSON fragment; the fuel bounds
nesting depth and is in practice the input length. -/
def parseValue : Nat → List Char → Option (Json × List Char)
  | 0, _ => none
  | fuel + 1, cs0 =>
    match skipJsonWs cs0 with
    | [] => none
    | c :: cs =>
      if c = '\x7b' then
        match skipJsonWs cs with
        | '\x7d' :: r => some (.obj [], r)
        | rest =>
          match parseMembers fuel rest with
          | some (ms, r) => some (.obj ms, r)
          | none => none
      else if c = '[' then
        match skipJsonWs cs with
        | ']' :: r => some (.arr [], r)
        | rest =>
          match parseElems fuel rest with
          | some (vs, r) => some (.arr vs, r)
          | none => none
      else if c = '\"' then
        match parseStrBody cs with
        | some (s, r) => some (.str s, r)
        | none => none
      else if c = 't' then
        match cs with
        | 'r' :: 'u' :: 'e' :: r => some (.bool true, r)
        | _ => none
      else if c = 'f' then
        match cs with
        | 'a' :: 'l' :: 's' :: 'e' :: r => some (.bool false, r)
        | _ => none
      else if c = 'n' then
        match cs with
        | 'u' :: 'l' :: 'l' :: r => some (.null, r)
        | _ => none
      else
        match parseIntLit (c :: cs) with
        | some (n, r) => some (.int n, r)
        | none => none

/-- Parse the members of a JSON object after its opening brace
(nonempty member list). -/
def parseMembers : Nat → List Char → Option (List (String × Json) × List Char)
  | 0, _ => none
  | fuel + 1, cs =>
    match skipJsonWs cs with
    | '\"' :: cs1 =>
      match parseStrBody cs1 with
      | some (k, r1) =>
        (match skipJsonWs r1 with
        | ':' :: r2 =>
          match parseValue fuel r2 with
          | some (v, r3) =>
            (match skipJsonWs r3 with
            | ',' :: r4 =>
              match parseMembers fuel r4 with
              | some (ms, r5) => some ((k, v) :: ms, r5)
              | none => none
            | '\x7d' :: r4 => some ([(k, v)], r4)
            | _ => none)
          | none => none
        | _ => none)
      | none => none
    | _ => none

/-- Parse the elements of a JSON array after its opening bracket
(nonempty element list). -/
def parseElems : Nat → List Char → Option (List Json × List Char)
  | 0, _ => none
  | fuel + 1, cs =>
    match parseValue fuel cs with
    | some (v, r1) =>
      (match skipJsonWs r1 with
      | ',' :: r2 =>
        match parseElems fuel r2 with
        | some (vs, r3) => some (v :: vs, r3)
        | none => none
      | ']' :: r2 => some (v :: [], r2)
      | _ => none)
    | none => none

end

/-- Python `json.loads` on the modelled fragment: one JSON value surrounded by
optional whitespace, with nothing else before the end of input. -/
def pyJsonLoads (s : String) : Option Json :=
  match parseValue (s.data.length + 1) s.data with
  | some (j, rest) => if skipJsonWs rest = [] then some j else none
  | none => none

/-- The ASCII whitespace characters Python's `str.strip` removes. -/
def isPyWs (c : Char) : Bool :=
  c = ' ' || c = '\t' || c = '\n' || c = '\r' || c = '\x0b' || c = '\x0c'

/-- Python `str.strip()`: drop leading and trailing whitespace. -/
def pyStrip (s : String) : String :=
  ⟨((s.data.dropWhile isPyWs).reverse.dropWhile isPyWs).reverse⟩

/-- Python `bytes.decode()` restricted to the ASCII range (the producer's messages
are pure ASCII since `json.dumps` escapes non-ASCII by default); bytes
outside it are out of the modelled fragment and decode fails. -/
def asciiDecode (bs : List Nat) : Option String :=
  if bs.all (· < 128) then some ⟨bs.map Char.ofNat⟩ else none

/-- From `print_handler.py` `PrintJob` (lines 36-46): one print job as held by the
consumer. `file_path` is the path string (`pathlib.Path` modelled as the raw
string). -/
structure PrintJob where
  job_id : String
  user : String
  title : String
  copies : Int
  options : String
  file_path : String
  timestamp : String
  processed : Bool
deriving Repr, DecidableEq

/-- From `print_handler.py` `PrintJob.from_dict` (lines 48-59): build a job from a
decoded JSON value, filling missing fields with defaults (`datetime.now()` is
the `now` argument).  Fields are modelled at their wire-schema types: a
non-object argument or a present field of another type makes construction
fail (in the source, a non-object or a non-string `file_path` raises, which
every caller catches; some other ill-typed fields would be stored as-is and
are outside the modelled fragment).  One `data.get(k, dflt)` at a
string-typed wire field: -/
def strField (d : List (String × Json)) (k dflt : String) : Option String :=
  match pyDictGet d k with
  | none => some dflt
  | some (.str s) => some s
  | some _ => none

/-- One `data.get(k, dflt)` of `PrintJob.from_dict` at an integer-typed wire
field. -/
def intField (d : List (String × Json)) (k : String) (dflt : Int) :
    Option Int :=
  match pyDictGet d k with
  | none => some dflt
  | some (.int n) => some n
  | some _ => none

/-- From `print_handler.py` `PrintJob.from_dict` (lines 48-59), assembled from the
per-field reads above; `processed` takes its dataclass default `False`. -/
def PrintJob.from_dict (now : String) : Json → Option PrintJob
  | .obj d => do
    let job_id ← strField d "job_id" ""
    let user ← strField d "user" ""
    let title ← strField d "title" "Untitled"
    let copies ← intField d "copies" 1
    let options ← strField d "options" ""
    let file_path ← strField d "file_path" ""
    let timestamp ← strField d "timestamp" now
    some ⟨job_id, user, title, copies, options, file_path, timestamp, false⟩
  | _ => none

/-- The wire/persisted JSON object for a job, as built by both
`cups_backend.py` lines 166-174 (`job_info`) and `print_handler.py` lines
168-179 (`_save_pending_jobs`): the seven wire fields, `processed` excluded. -/
def PrintJob.toWire (j : PrintJob) : Json :=
  .obj [("job_id", .str j.job_id), ("user", .str j.user),
        ("title", .str j.title), ("copies", .int j.copies),
        ("options", .str j.options), ("file_path", .str j.file_path),
        ("timestamp", .str j.timestamp)]

/-- Contents of one file: raw payload bytes, or a JSON value written by
`json.dump` (read back by `json.load`); a malformed JSON file is a `bytes`
file. -/
inductive FileData where
  | bytes : List Nat → FileData
  | json : Json → FileData

/-- The filesystem: path string to file contents, `none` when absent. -/
def Fs : Type := String → Option FileData

/-- Overwrite (or create) one file. -/
def Fs.write (fs : Fs) (p : String) (d : FileData) : Fs :=
  fun q => if q = p then some d else fs q

/-- Delete one file (`Path.unlink`). -/
def Fs.remove (fs : Fs) (p : String) : Fs :=
  fun q => if q = p then none else fs q

/-- From `cups_backend.py` `get_spool_dir` (lines 64-71) and `print_handler.py`
`get_spool_dir` (lines 26-30): `/tmp/open-pdf-creator-spool/<user>`. -/
def spoolDir (user : String) : String :=
  "/tmp/open-pdf-creator-spool/" ++ user

/-- Path of the per-user pending-list file `pending_jobs.json`
(`cups_backend.py` line 225, `print_handler.py` lines 133 and 157). -/
def pendingPath (user : String) : String :=
  spoolDir user ++ "/pending_jobs.json"

/-- The per-character replacement of `cups_backend.py` line 135:
`c if c.isalnum() or c in "._-" else "_"`. -/
def sanitizeChar (c : Char) : Char :=
  if c.isAlphanum || c = '.' || c = '_' || c = '-' then c else '_'

/-- From `cups_backend.py` line 135: `"".join(c if c.isalnum() or c in "._-" else
"_" for c in title)[:50]` — replace every character that is not alphanumeric,
dot, underscore or hyphen with an underscore, then truncate to 50. -/
def safe_title (title : String) : String :=
  ⟨(title.data.map sanitizeChar).take 50⟩

/-- From `cups_backend.py` line 136: the payload filename
`{timestamp}_{job_id}_{safe_title}.pdf`. -/
def jobFilename (now jobId title : String) : String :=
  now ++ "_" ++ jobId ++ "_" ++ safe_title title ++ ".pdf"

/-- From `cups_backend.py` line 137: the payload path `spool_dir / job_filename`. -/
def jobPath (user now jobId title : String) : String :=
  spoolDir user ++ "/" ++ jobFilename now jobId title

/-- From `cups_backend.py` lines 146-152: copy standard input to the payload file
in 65536-byte chunks (`sys.stdin.buffer.read(65536)` until empty). -/
def copyChunks (d : List Nat) : List Nat :=
  if h : d.take 65536 = [] then [] else d.take 65536 ++ copyChunks (d.drop 65536)
termination_by d.length
decreasing_by
  have hd : d ≠ [] := by
    intro he
    subst he
    exact h rfl
  have hpos : 0 < d.length := List.length_pos.mpr hd
  simp only [List.length_drop]
  omega

/-- The payload source of one producer invocation: a live standard-input
stream, or an existing file to copy (`argv[6]`). -/
inductive PayloadSource where
  | stdin : List Nat → PayloadSource
  | fromFile : String → PayloadSource

/-- The environment of one producer invocation: outcome oracles for the
side effects whose success the operating system decides. -/
structure ProdEnv where
  /-- The Unix-socket delivery of `notify_gui` (lines 194-201) reaches a
  listener: the socket path exists, connect and send succeed. -/
  unixDeliver : Bool
  /-- The loopback-TCP delivery of `notify_gui` (lines 204-211) succeeds. -/
  tcpDeliver : Bool
  /-- The payload write (lines 140-152) succeeds; on failure the source
  raises inside the `try` and `process_job` returns 1. -/
  payloadWriteOk : Bool
  /-- `open(pending_file, "w")` + `json.dump` in `start_gui_with_job`
  (lines 240-241) succeeds; a failure there is an uncaught `OSError`. -/
  pendingWriteOk : Bool
  /-- `datetime.now().strftime("%Y%m%d_%H%M%S")` (line 134). -/
  now : String

/-- Result of one `process_job` call: its return code, whether an uncaught
exception escaped (the `__main__` guard then exits 1), the filesystem after
the call, and whether a notification send was attempted. -/
structure ProdOut where
  code : Nat
  raised : Bool
  fs : Fs
  notifyAttempted : Bool

/-- From `cups_backend.py` `notify_gui` (lines 185-213): Unix socket first, then
loopback TCP; true iff either delivery succeeded. -/
def notify_gui (env : ProdEnv) : Bool :=
  env.unixDeliver || env.tcpDeliver

/-- The pending-list read in `start_gui_with_job` (lines 227-234): absent or
unparseable file gives `[]`; a JSON file holding a non-array is returned as
loaded (the subsequent `.append` then raises — `none` here). -/
def readPendingForAppend (fs : Fs) (user : String) : Option (List Json) :=
  match fs (pendingPath user) with
  | none => some []
  | some (.bytes _) => some []
  | some (.json (.arr l)) => some l
  | some (.json _) => none

/-- From `cups_backend.py` `start_gui_with_job` (lines 216-287): append the job to
the per-user pending list and try to spawn the consumer (the spawn attempt is
fully guarded and unmodelled).  Returns the filesystem and whether an
uncaught exception escaped. -/
def start_gui_with_job (env : ProdEnv) (fs : Fs) (jobInfo : Json)
    (user : String) : Fs × Bool :=
  match readPendingForAppend fs user with
  | none => (fs, true)
  | some l =>
    if env.pendingWriteOk then
      (fs.write (pendingPath user) (.json (.arr (l ++ [jobInfo]))), false)
    else (fs, true)

/-- The payload read of `process_job` (lines 139-155): the bytes the payload
file receives — the chunked stdin copy, or the contents of the input file
(`shutil.copy`); `none` when the write fails and the `except` branch runs. -/
def payloadContent (env : ProdEnv) (fs : Fs) (src : PayloadSource) :
    Option (List Nat) :=
  if env.payloadWriteOk then
    match src with
    | .stdin d => some (copyChunks d)
    | .fromFile p =>
      match fs p with
      | some (.bytes b) => some b
      | _ => none
  else none

/-- From `cups_backend.py` `process_job` (lines 82-182): write the payload, build
the job metadata, attempt live delivery, and fall back to the pending list. -/
def process_job (env : ProdEnv) (fs : Fs) (jobId user title : String)
    (copies : Int) (options : String) (src : PayloadSource) : ProdOut :=
  let path := jobPath user env.now jobId title
  match payloadContent env fs src with
  | none => ⟨1, false, fs, false⟩
  | some payload =>
    let fs1 := fs.write path (.bytes payload)
    let jobInfo : Json :=
      .obj [("job_id", .str jobId), ("user", .str user), ("title", .str title),
            ("copies", .int copies), ("options", .str options),
            ("file_path", .str path), ("timestamp", .str env.now)]
    if notify_gui env then ⟨0, false, fs1, true⟩
    else
      let (fs2, raised) := start_gui_with_job env fs1 jobInfo user
      ⟨0, raised, fs2, true⟩

/-- Python `int()` on the modelled fragment (an optionally signed run of
decimal digits; `int()` additionally strips whitespace and accepts
underscores, outside the fragment), as used for `argv[4]`: a failed parse is
the caught `ValueError` giving `copies = 1`. -/
def pyInt (s : String) : Option Int :=
  match parseIntLit s.data with
  | some (n, []) => some n
  | _ => none

/-- From `cups_backend.py` `main` plus the `__main__` guard (lines 302-343):
argument dispatch; an uncaught exception exits 1.  Returns the exit status
and the filesystem. -/
def backendMain (env : ProdEnv) (fs : Fs) (argv : List String)
    (stdinData : List Nat) : Nat × Fs :=
  if argv.length = 1 then (0, fs)
  else if argv.length < 6 then (1, fs)
  else
    match argv with
    | _ :: jobId :: user :: title :: copiesStr :: options :: rest =>
      let copies : Int := (pyInt copiesStr).getD 1
      let src : PayloadSource :=
        match rest with
        | inputFile :: _ => .fromFile inputFile
        | [] => .stdin stdinData
      let out := process_job env fs jobId user title copies options src
      (if out.raised then 1 else out.code, out.fs)
    | _ => (1, fs)

/-- The consumer's mutable state (`PrintJobHandler`, lines 70-76): the
in-memory job list `_pending_jobs` and, as the observable trace, the jobs
emitted through the `job_received` signal, in emission order. -/
structure ConsState where
  pendingJobs : List PrintJob
  events : List PrintJob
deriving Repr, DecidableEq

/-- The consumer state at handler construction. -/
def initConsState : ConsState := ⟨[], []⟩

/-- The loop of `_load_pending_jobs` (lines 142-147): for each record of the
parsed pending list, build the job; when its payload file exists, append it
and emit `job_received`, otherwise skip it.  A record `from_dict` cannot
build (non-object, ill-typed) raises outside the caught exception classes:
`error`. -/
def loadItems (fs : Fs) (now : String) :
    List Json → ConsState → Except Unit ConsState
  | [], st => .ok st
  | d :: ds, st =>
    match PrintJob.from_dict now d with
    | none => .error ()
    | some job =>
      if (fs job.file_path).isSome then
        loadItems fs now ds
          ⟨st.pendingJobs ++ [job], st.events ++ [job]⟩
      else loadItems fs now ds st

/-- From `print_handler.py` `_load_pending_jobs` (lines 131-153): no file — do
nothing; unparseable file (`JSONDecodeError`, caught) — print and leave the
file in place; a parsed array — load each record, then delete the file; a
parsed non-array raises uncaught while iterating (`error`). -/
def load_pending_jobs (user now : String) (fs : Fs) (st : ConsState) :
    Except Unit (Fs × ConsState) :=
  match fs (pendingPath user) with
  | none => .ok (fs, st)
  | some (.bytes _) => .ok (fs, st)
  | some (.json (.arr l)) =>
    match loadItems fs now l st with
    | .ok st1 => .ok (fs.remove (pendingPath user), st1)
    | .error e => .error e
  | some (.json _) => .error ()

/-- From `print_handler.py` `_save_pending_jobs` (lines 155-185): filter the
unprocessed jobs; when none remain delete the pending file if present,
otherwise rewrite it with their wire records (`writeOk` is the outcome of
the `open`/`json.dump`, whose `OSError` is caught leaving the file
untouched). -/
def save_pending_jobs (user : String) (fs : Fs) (st : ConsState)
    (writeOk : Bool) : Fs :=
  let unprocessed := st.pendingJobs.filter (fun j => !j.processed)
  if unprocessed.isEmpty then fs.remove (pendingPath user)
  else if writeOk then
    fs.write (pendingPath user) (.json (.arr (unprocessed.map PrintJob.toWire)))
  else fs

/-- Set the `processed` flag of the job at one position (`job.processed =
True` mutates the object shared with `_pending_jobs`). -/
def markAt : List PrintJob → Nat → List PrintJob
  | [], _ => []
  | j :: js, 0 => { j with processed := true } :: js
  | j :: js, n + 1 => j :: markAt js n

/-- From `print_handler.py` `mark_job_processed` (lines 126-129): set the job's
`processed` flag and rewrite the persisted list.  Python mutates the job
object shared with `_pending_jobs`; the model updates the list entry at the
job's index. -/
def mark_job_processed (user : String) (fs : Fs) (st : ConsState) (i : Nat)
    (writeOk : Bool) : Fs × ConsState :=
  let st1 : ConsState := ⟨markAt st.pendingJobs i, st.events⟩
  (save_pending_jobs user fs st1 writeOk, st1)

/-- The receive loop of `_handle_connection` (lines 246-253): accumulate
`recv` chunks; stop at an empty chunk (peer closed) or once the buffer
contains a newline; an exhausted chunk list also models the peer closing. -/
def recvLoop (acc : List Nat) : List (List Nat) → List Nat
  | [] => acc
  | c :: cs =>
    if c = [] then acc
    else if (10 : Nat) ∈ acc ++ c then acc ++ c
    else recvLoop (acc ++ c) cs

/-- All bytes `_handle_connection` buffers from a connection. -/
def recvData (chunks : List (List Nat)) : List Nat :=
  recvLoop [] chunks

/-- The parse step of `_handle_connection` (lines 255-256): on a nonempty
buffer, decode, strip, `json.loads`; any failure yields no value. -/
def bufferedParse (chunks : List (List Nat)) : Option Json :=
  let data := recvData chunks
  if data = [] then none
  else
    match asciiDecode data with
    | none => none
    | some s => pyJsonLoads (pyStrip s)

/-- The message-processing of `_handle_connection` (lines 255-259): the
parsed buffer through `PrintJob.from_dict`; any failure is caught and yields
no job. -/
def connMessage (now : String) (chunks : List (List Nat)) : Option PrintJob :=
  match bufferedParse chunks with
  | some j => PrintJob.from_dict now j
  | none => none

/-- From `print_handler.py` `_handle_connection` (lines 243-265): on a parsed job,
append it to `_pending_jobs` and emit `job_received`; otherwise leave the
state unchanged.  The second component records that the connection is closed
(the `finally` block) on every path. -/
def handle_connection (now : String) (chunks : List (List Nat))
    (st : ConsState) : ConsState × Bool :=
  match connMessage now chunks with
  | some job => (⟨st.pendingJobs ++ [job], st.events ++ [job]⟩, true)
  | none => (st, true)

/-- The accept loop of `_unix_listener` / `_tcp_listener` (lines 205-215,
228-238) over the sequence of accepted connections: each is handed to
`_handle_connection`, which never lets an exception escape, so the loop
processes every connection. -/
def listenerRun (now : String) (conns : List (List (List Nat)))
    (st : ConsState) : ConsState :=
  conns.foldl (fun s c => (handle_connection now c s).1) st

/-- From `print_handler.py` `start` (lines 78-96): load and clear the persisted
pending list, then start the listener threads — modelled as the listeners
handling the connection sequence `conns` after reconciliation completes. -/
def consumerStart (user now : String) (fs : Fs)
    (conns : List (List (List Nat))) : Except Unit (Fs × ConsState) :=
  match load_pending_jobs user now fs initConsState with
  | .ok (fs1, st1) => .ok (fs1, listenerRun now conns st1)
  | .error e => .error e

/-- The records of the persisted pending list of `user` in `fs`: the stored
array, `[]` when the file is absent. -/
def pendingRecords (fs : Fs) (user : String) : List Json :=
  match fs (pendingPath user) with
  | some (.json (.arr l)) => l
  | _ => []

/-- The successive contents of the pending-list file during one mutation:
both mutation sites (`cups_backend.py` lines 240-241 and `print_handler.py`
lines 181-182) run `open(path, "w")`, which truncates the file in place,
followed by an incremental `json.dump`, so the observable intermediate
contents are the empty file and every prefix of the new serialization. -/
def inPlaceWriteStates (newContent : String) : List String :=
  "" :: (List.range newContent.length).map (fun k => ⟨newContent.data.take (k + 1)⟩)

/-- A mutation taking the pending file from contents `old` to contents `new`
is atomic when no intermediate state other than the old or the new contents
is ever observable. -/
def AtomicMutation (old newContent : String) : Prop :=
  ∀ s ∈ inPlaceWriteStates newContent, s = old ∨ s = newContent

instance (old newContent : String) : Decidable (AtomicMutation old newContent) :=
  inferInstanceAs (Decidable (∀ s ∈ inPlaceWriteStates newContent, _ ∨ _))

/-- The sanitization rule exactly as claim C2 states it, for comparison with
the source's `safe_title`: truncate the title to 50 characters, then replace
every character that is not alphanumeric, space, dot, underscore, or hyphen
with an underscore (space is kept). -/
def claimSanitizeSegment (title : String) : String :=
  ⟨(title.data.take 50).map (fun c =>
      if c.isAlphanum || c = ' ' || c = '.' || c = '_' || c = '-' then c
      else '_')⟩

/-- The amended sanitization rule: truncate the title to 50 characters, then
apply the source's per-character replacement, which does not keep space. -/
def amendedSanitizeSegment (title : String) : String :=
  ⟨(title.data.take 50).map sanitizeChar⟩

/-- The character set `[A-Za-z0-9._-]`. -/
def inSegCharset (c : Char) : Bool :=
  ('A' ≤ c && c ≤ 'Z') || ('a' ≤ c && c ≤ 'z') || ('0' ≤ c && c ≤ '9') ||
  c = '.' || c = '_' || c = '-'

/-- A JSON value that is a string, as the wire schema types six of the seven
fields. -/
def IsStrVal (v : Json) : Prop := ∃ s, v = .str s

/-- A JSON value that is an integer, as the wire schema types `copies`. -/
def IsIntVal (v : Json) : Prop := ∃ n, v = .int n

/-- A JSON object whose present wire fields carry their schema types
(§6 wire message: six strings and the integer `copies`). -/
def WireTyped (d : List (String × Json)) : Prop :=
  (∀ v, pyDictGet d "job_id" = some v → IsStrVal v) ∧
  (∀ v, pyDictGet d "user" = some v → IsStrVal v) ∧
  (∀ v, pyDictGet d "title" = some v → IsStrVal v) ∧
  (∀ v, pyDictGet d "copies" = some v → IsIntVal v) ∧
  (∀ v, pyDictGet d "options" = some v → IsStrVal v) ∧
  (∀ v, pyDictGet d "file_path" = some v → IsStrVal v) ∧
  (∀ v, pyDictGet d "timestamp" = some v → IsStrVal v)

/-- Parse a stored pending array into jobs, record by record; `none` when
some record cannot be built. -/
def parseJobs (now : String) : List Json → Option (List PrintJob)
  | [] => some []
  | w :: ws =>
    match PrintJob.from_dict now w, parseJobs now ws with
    | some j, some js => some (j :: js)
    | _, _ => none

/-- The jobs of a loaded list whose payload file still exists. -/
def keepJobs (fs : Fs) (js : List PrintJob) : List PrintJob :=
  js.filter (fun j => (fs j.file_path).isSome)

/-- The jobs an accept loop raises from a connection sequence, in order. -/
def liveJobs (now : String) (conns : List (List (List Nat))) :
    List PrintJob :=
  conns.filterMap (connMessage now)

/-- A concrete job for witness instantiations. -/
def wJob : PrintJob :=
  ⟨"1", "alice", "doc", 1, "", jobPath "alice" "20240101_090000" "1" "doc",
   "20240101_090000", false⟩

/-- A concrete filesystem holding `wJob`'s pending record and payload. -/
def wFs : Fs := fun p =>
  if p = pendingPath "alice" then some (.json (.arr [wJob.toWire]))
  else if p = wJob.file_path then some (.bytes [37, 80, 68, 70])
  else none

/-- First of three concrete pending jobs. -/
def wJob1 : PrintJob :=
  ⟨"1", "alice", "a", 1, "", jobPath "alice" "20240101_090001" "1" "a",
   "20240101_090001", false⟩

/-- Second of three concrete pending jobs. -/
def wJob2 : PrintJob :=
  ⟨"2", "alice", "b", 1, "", jobPath "alice" "20240101_090002" "2" "b",
   "20240101_090002", false⟩

/-- Third of three concrete pending jobs. -/
def wJob3 : PrintJob :=
  ⟨"3", "alice", "c", 1, "", jobPath "alice" "20240101_090003" "3" "c",
   "20240101_090003", false⟩

/-- A concrete filesystem holding the three payload files. -/
def wFs3 : Fs := fun p =>
  if p = wJob1.file_path then some (.bytes [1])
  else if p = wJob2.file_path then some (.bytes [2])
  else if p = wJob3.file_path then some (.bytes [3])
  else none

/-- The wire text of one live job, newline-terminated, as a byte chunk. -/
def strBytes (s : String) : List Nat :=
  s.data.map Char.toNat

/-- One live connection delivering a job for the witness runs. -/
def wConn : List (List Nat) :=
  [strBytes "\x7b\x22job_id\x22: \x22L\x22, \x22user\x22: \x22alice\x22, \x22title\x22: \x22t\x22, \x22copies\x22: 2, \x22options\x22: \x22\x22, \x22file_path\x22: \x22/tmp/x.pdf\x22, \x22timestamp\x22: \x22T2\x22\x7d\n"]

/-- A producer environment with the Notification Channel unreachable and all
writes succeeding. -/
def wEnv : ProdEnv := ⟨false, false, true, true, "20240101_090000"⟩

/-- A producer environment whose pending-list write fails after unreachable
delivery. -/
def wEnvF : ProdEnv := ⟨false, false, true, false, "20240101_090000"⟩

/-- A producer environment with live Unix-socket delivery succeeding. -/
def wEnvD : ProdEnv := ⟨true, false, true, true, "20240101_090000"⟩

/-- The bytes of a buffer up to (excluding) the first newline — the prefix
the claim says is parsed. -/
def bytesUpToFirstNewline (bs : List Nat) : List Nat :=
  bs.takeWhile (fun b => b ≠ 10)

/-- The image of the source's per-character replacement lies in
`[A-Za-z0-9._-]`. -/
theorem sanitizeChar_mem_charset (c : Char) :
    inSegCharset (sanitizeChar c) = true := by
  unfold sanitizeChar
  by_cases h : (c.isAlphanum || c = '.' || c = '_' || c = '-') = true
  · rw [if_pos h]
    rcases Bool.or_eq_true_iff.mp h with h1 | h1
    · rcases Bool.or_eq_true_iff.mp h1 with h2 | h2
      · rcases Bool.or_eq_true_iff.mp h2 with h3 | h3
        · simp only [Char.isAlphanum, Char.isAlpha, Char.isDigit,
            Char.isUpper, Char.isLower, Bool.or_eq_true,
            Bool.and_eq_true, decide_eq_true_eq] at h3
          simp only [inSegCharset, Bool.or_eq_true, Bool.and_eq_true,
            decide_eq_true_eq]
          tauto
        · simp only [decide_eq_true_eq] at h3
          simp [inSegCharset, h3]
      · simp only [decide_eq_true_eq] at h2
        simp [inSegCharset, h2]
    · simp only [decide_eq_true_eq] at h1
      simp [inSegCharset, h1]
  · rw [if_neg h]
    decide

/-- C2, counterexample: the claim's sanitization rule keeps space, but the
source's `safe_title` replaces it — at title `"a b"` the code yields `"a_b"`
while the claimed rule yields `"a b"`. -/
theorem C2_sanitizer_counterexample :
    safe_title "a b" ≠ claimSanitizeSegment "a b" ∧
    safe_title "a b" = "a_b" ∧ claimSanitizeSegment "a b" = "a b" := by
  refine ⟨by decide, by decide, by decide⟩

/-- C2, amended: for every ASCII title, the sanitized filename segment equals
the title truncated to 50 characters with every character that is not
alphanumeric, dot, underscore, or hyphen (space included) replaced by an
underscore; the result has length at most 50 and characters in
`[A-Za-z0-9._-]`, and title `"Invoice #42/2024"` yields segment
`"Invoice__42_2024"`. -/
theorem C2_sanitizer_amended (title : String)
    (hascii : ∀ c ∈ title.data, c.toNat < 128) :
    safe_title title = amendedSanitizeSegment title ∧
    (safe_title title).length ≤ 50 ∧
    (∀ c ∈ (safe_title title).data, inSegCharset c = true) ∧
    safe_title "Invoice #42/2024" = "Invoice__42_2024" := by
  refine ⟨?_, ?_, ?_, by decide⟩
  · unfold safe_title amendedSanitizeSegment
    rw [List.map_take]
  · show (safe_title title).data.length ≤ 50
    unfold safe_title
    simp only [List.length_take]
    omega
  · intro c hc
    unfold safe_title at hc
    simp only at hc
    have hc2 : c ∈ title.data.map sanitizeChar := List.mem_of_mem_take hc
    rcases List.mem_map.mp hc2 with ⟨a, _, rfl⟩
    exact sanitizeChar_mem_charset a

/-- Witness for `C2_sanitizer_amended` at the title `"Invoice #42/2024"`. -/
theorem C2_sanitizer_amended_witness :
    (∀ c ∈ ("Invoice #42/2024" : String).data, c.toNat < 128) ∧
    (safe_title "Invoice #42/2024" = amendedSanitizeSegment "Invoice #42/2024" ∧
     (safe_title "Invoice #42/2024").length ≤ 50 ∧
     (∀ c ∈ (safe_title "Invoice #42/2024").data, inSegCharset c = true) ∧
     safe_title "Invoice #42/2024" = "Invoice__42_2024") :=
  ⟨by decide, C2_sanitizer_amended "Invoice #42/2024" (by decide)⟩

/-- C3, counterexample: rewriting the pending list from a one-job
serialization to a two-job serialization is not atomic — the truncated empty
file is an observable intermediate state that is neither the old nor the new
contents. -/
theorem C3_atomicity_counterexample :
    ¬ AtomicMutation "[\x7b\x22job_id\x22: \x22j1\x22\x7d]"
        "[\x7b\x22job_id\x22: \x22j1\x22\x7d, \x7b\x22job_id\x22: \x22j2\x22\x7d]" := by
  decide

/-- C3, amended: every mutation of the pending-list file rewrites it in place
(`open(path, "w")` truncates, then the new list is written incrementally), so
whenever the old and the new serializations are both nonempty the mutation is
not atomic — an interrupted write can leave the truncated or partially
written file; the Consumer rewrite deletes the file whenever no unprocessed
job remains, so the file is absent when the pending list is empty (a Producer
append always leaves a nonempty list). -/
theorem C3_mutation_amended (old newC : String) (h1 : old ≠ "")
    (h2 : newC ≠ "") (user : String) (fs : Fs) (st : ConsState)
    (writeOk : Bool)
    (hempty : (st.pendingJobs.filter (fun j => !j.processed)).isEmpty = true) :
    ¬ AtomicMutation old newC ∧
    save_pending_jobs user fs st writeOk (pendingPath user) = none := by
  constructor
  · intro hA
    have hmem : "" ∈ inPlaceWriteStates newC := List.mem_cons_self _ _
    rcases hA "" hmem with h | h
    · exact h1 h.symm
    · exact h2 h.symm
  · unfold save_pending_jobs
    rw [if_pos hempty]
    simp [Fs.remove]

/-- Witness for `C3_mutation_amended` at concrete contents, user and state. -/
theorem C3_mutation_amended_witness :
    (("[old]" : String) ≠ "" ∧ ("[new]" : String) ≠ "" ∧
     ((initConsState.pendingJobs.filter (fun j => !j.processed)).isEmpty = true)) ∧
    (¬ AtomicMutation "[old]" "[new]" ∧
     save_pending_jobs "alice" (fun _ => none) initConsState true
       (pendingPath "alice") = none) :=
  ⟨⟨by decide, by decide, by decide⟩,
   C3_mutation_amended "[old]" "[new]" (by decide) (by decide) "alice"
     (fun _ => none) initConsState true (by decide)⟩

/-- A string-typed field read succeeds, and yields the default exactly when
the key is absent. -/
theorem strField_spec (d : List (String × Json)) (k dflt : String)
    (h : ∀ v, pyDictGet d k = some v → IsStrVal v) :
    ∃ s, strField d k dflt = some s ∧ (pyDictGet d k = none → s = dflt) := by
  unfold strField
  cases hv : pyDictGet d k with
  | none => exact ⟨dflt, rfl, fun _ => rfl⟩
  | some v =>
    rcases h v hv with ⟨s, rfl⟩
    exact ⟨s, rfl, fun hn => by cases hn⟩

/-- An integer-typed field read succeeds, and yields the default exactly when
the key is absent. -/
theorem intField_spec (d : List (String × Json)) (k : String) (dflt : Int)
    (h : ∀ v, pyDictGet d k = some v → IsIntVal v) :
    ∃ n, intField d k dflt = some n ∧ (pyDictGet d k = none → n = dflt) := by
  unfold intField
  cases hv : pyDictGet d k with
  | none => exact ⟨dflt, rfl, fun _ => rfl⟩
  | some v =>
    rcases h v hv with ⟨n, rfl⟩
    exact ⟨n, rfl, fun hn => by cases hn⟩

/-- C10, confirmed: for every JSON object with schema-typed wire fields,
`PrintJob.from_dict` succeeds even when any or all of the seven fields are
missing, filling the absent ones with the defaults (`job_id` `""`, `user`
`""`, `title` `"Untitled"`, `copies` `1`, `options` `""`, `file_path` `""`,
`timestamp` the current time) and initializing `processed` to `false`. -/
theorem C10_from_dict_defaults (d : List (String × Json)) (now : String)
    (h : WireTyped d) :
    ∃ job, PrintJob.from_dict now (.obj d) = some job ∧
      (pyDictGet d "job_id" = none → job.job_id = "") ∧
      (pyDictGet d "user" = none → job.user = "") ∧
      (pyDictGet d "title" = none → job.title = "Untitled") ∧
      (pyDictGet d "copies" = none → job.copies = 1) ∧
      (pyDictGet d "options" = none → job.options = "") ∧
      (pyDictGet d "file_path" = none → job.file_path = "") ∧
      (pyDictGet d "timestamp" = none → job.timestamp = now) ∧
      job.processed = false := by
  obtain ⟨h1, h2, h3, h4, h5, h6, h7⟩ := h
  obtain ⟨s1, e1, d1⟩ := strField_spec d "job_id" "" h1
  obtain ⟨s2, e2, d2⟩ := strField_spec d "user" "" h2
  obtain ⟨s3, e3, d3⟩ := strField_spec d "title" "Untitled" h3
  obtain ⟨n4, e4, d4⟩ := intField_spec d "copies" 1 h4
  obtain ⟨s5, e5, d5⟩ := strField_spec d "options" "" h5
  obtain ⟨s6, e6, d6⟩ := strField_spec d "file_path" "" h6
  obtain ⟨s7, e7, d7⟩ := strField_spec d "timestamp" now h7
  refine ⟨⟨s1, s2, s3, n4, s5, s6, s7, false⟩, ?_,
    d1, d2, d3, d4, d5, d6, d7, rfl⟩
  simp [PrintJob.from_dict, e1, e2, e3, e4, e5, e6, e7]

/-- Witness for `C10_from_dict_defaults` at the empty object (all seven wire
fields missing). -/
theorem C10_from_dict_defaults_witness :
    WireTyped [] ∧
    ∃ job, PrintJob.from_dict "20240101_090000" (.obj []) = some job ∧
      (pyDictGet [] "job_id" = none → job.job_id = "") ∧
      (pyDictGet [] "user" = none → job.user = "") ∧
      (pyDictGet [] "title" = none → job.title = "Untitled") ∧
      (pyDictGet [] "copies" = none → job.copies = 1) ∧
      (pyDictGet [] "options" = none → job.options = "") ∧
      (pyDictGet [] "file_path" = none → job.file_path = "") ∧
      (pyDictGet [] "timestamp" = none → job.timestamp = "20240101_090000") ∧
      job.processed = false := by
  have hW : WireTyped ([] : List (String × Json)) := by
    refine ⟨?_, ?_, ?_, ?_, ?_, ?_, ?_⟩ <;>
      (intro v hv; simp [pyDictGet] at hv)
  exact ⟨hW, C10_from_dict_defaults [] "20240101_090000" hW⟩

/-- The chunked stdin copy writes back exactly the input bytes. -/
theorem copyChunks_eq (d : List Nat) : copyChunks d = d := by
  generalize hn : d.length = n
  induction n using Nat.strong_induction_on generalizing d with
  | _ n ih =>
    rw [copyChunks]
    by_cases h : d.take 65536 = []
    · rw [dif_pos h]
      cases d with
      | nil => rfl
      | cons a as => simp at h
    · rw [dif_neg h]
      have hd : d ≠ [] := by
        intro he
        subst he
        exact h rfl
      have hlt : (d.drop 65536).length < n := by
        subst hn
        have hpos : 0 < d.length := List.length_pos.mpr hd
        simp only [List.length_drop]
        omega
      rw [ih _ hlt _ rfl]
      exact List.take_append_drop _ _

/-- A payload path never collides with the pending-list path: the former ends
in `.pdf`, the latter in `pending_jobs.json`. -/
theorem jobPath_ne_pendingPath (user now jobId title u2 : String) :
    jobPath user now jobId title ≠ pendingPath u2 := by
  intro h
  have hd := congrArg (fun s : String => s.data.reverse.head?) h
  simp only [jobPath, pendingPath, jobFilename, spoolDir, String.data_append,
    List.append_assoc, List.reverse_append] at hd
  simp at hd

/-- Serializing a job to its wire object and reading it back with
`PrintJob.from_dict` restores every field, with `processed` reset. -/
theorem from_dict_toWire (now : String) (j : PrintJob) :
    PrintJob.from_dict now j.toWire = some { j with processed := false } := rfl

/-- The reconciliation loop, characterized: when every record builds a job,
it succeeds and appends (to the job list and to the emission trace, in stored
order) exactly the jobs whose payload file exists. -/
theorem loadItems_ok (fs : Fs) (now : String) (ws : List Json)
    (js : List PrintJob) (h : parseJobs now ws = some js) (st : ConsState) :
    loadItems fs now ws st =
      .ok ⟨st.pendingJobs ++ keepJobs fs js, st.events ++ keepJobs fs js⟩ := by
  induction ws generalizing js st with
  | nil =>
    cases h
    simp [loadItems, keepJobs]
  | cons w ws ih =>
    unfold parseJobs at h
    cases hj : PrintJob.from_dict now w with
    | none => rw [hj] at h; cases h
    | some j =>
      rw [hj] at h
      cases hrest : parseJobs now ws with
      | none => rw [hrest] at h; cases h
      | some js2 =>
        rw [hrest] at h
        cases h
        unfold loadItems
        simp only [hj]
        by_cases hex : (fs j.file_path).isSome
        · rw [if_pos hex, ih js2 hrest]
          simp [keepJobs, List.filter_cons, hex]
        · rw [if_neg hex, ih js2 hrest]
          simp [keepJobs, List.filter_cons, hex]

/-- The accept loop, characterized: it appends to the job list and to the
emission trace exactly the jobs of the connections that parse, in arrival
order.  First, one loop step: -/
theorem listenerRun_cons (now : String) (c : List (List Nat))
    (cs : List (List (List Nat))) (st : ConsState) :
    listenerRun now (c :: cs) st =
      listenerRun now cs (handle_connection now c st).1 := rfl

/-- The accept loop appends exactly the parsed jobs, in arrival order. -/
theorem listenerRun_eq (now : String) (conns : List (List (List Nat)))
    (st : ConsState) :
    listenerRun now conns st =
      ⟨st.pendingJobs ++ liveJobs now conns,
       st.events ++ liveJobs now conns⟩ := by
  induction conns generalizing st with
  | nil => simp [listenerRun, liveJobs]
  | cons c cs ih =>
    rw [listenerRun_cons]
    cases hc : connMessage now c with
    | none =>
      have hstep : (handle_connection now c st).1 = st := by
        simp [handle_connection, hc]
      rw [hstep, ih st]
      simp [liveJobs, List.filterMap_cons, hc]
    | some j =>
      have hstep : (handle_connection now c st).1 =
          ⟨st.pendingJobs ++ [j], st.events ++ [j]⟩ := by
        simp [handle_connection, hc]
      rw [hstep, ih]
      simp [liveJobs, List.filterMap_cons, hc]

/-- Reading back the path just written. -/
theorem Fs.write_self (fs : Fs) (p : String) (d : FileData) :
    (fs.write p d) p = some d := by
  simp [Fs.write]

/-- A write leaves every other path unchanged. -/
theorem Fs.write_ne (fs : Fs) (p : String) (d : FileData) (q : String)
    (h : q ≠ p) : (fs.write p d) q = fs q := by
  simp [Fs.write, h]

/-- The removed path is absent. -/
theorem Fs.remove_self (fs : Fs) (p : String) : (fs.remove p) p = none := by
  simp [Fs.remove]

/-- A removal leaves every other path unchanged. -/
theorem Fs.remove_ne (fs : Fs) (p : String) (q : String) (h : q ≠ p) :
    (fs.remove p) q = fs q := by
  simp [Fs.remove, h]

/-- C6, confirmed: when the pending file holds an array of well-formed
records whose payload files all exist, `loadPending` returns the full stored
list, deletes the backing file, and a second call on the resulting state
returns nothing new — the full stored list, then the empty list. -/
theorem C6_load_destructive (user now : String) (fs : Fs) (ws : List Json)
    (js : List PrintJob)
    (hfile : fs (pendingPath user) = some (.json (.arr ws)))
    (hparse : parseJobs now ws = some js)
    (hexist : ∀ j ∈ js, (fs j.file_path).isSome = true) :
    load_pending_jobs user now fs initConsState =
      .ok (fs.remove (pendingPath user), ⟨js, js⟩) ∧
    (fs.remove (pendingPath user)) (pendingPath user) = none ∧
    load_pending_jobs user now (fs.remove (pendingPath user)) ⟨js, js⟩ =
      .ok (fs.remove (pendingPath user), ⟨js, js⟩) := by
  have hk : keepJobs fs js = js := List.filter_eq_self.mpr hexist
  refine ⟨?_, Fs.remove_self fs (pendingPath user), ?_⟩
  · unfold load_pending_jobs
    simp only [hfile]
    simp only [loadItems_ok fs now ws js hparse initConsState]
    simp [initConsState, hk]
  · unfold load_pending_jobs
    simp only [Fs.remove_self fs (pendingPath user)]

/-- Witness for `C6_load_destructive` at one stored job. -/
theorem C6_load_destructive_witness :
    (wFs (pendingPath "alice") = some (.json (.arr [wJob.toWire])) ∧
     parseJobs "20240101_090000" [wJob.toWire] = some [wJob] ∧
     (∀ j ∈ [wJob], (wFs j.file_path).isSome = true)) ∧
    (load_pending_jobs "alice" "20240101_090000" wFs initConsState =
        .ok (wFs.remove (pendingPath "alice"), ⟨[wJob], [wJob]⟩) ∧
     (wFs.remove (pendingPath "alice")) (pendingPath "alice") = none ∧
     load_pending_jobs "alice" "20240101_090000"
         (wFs.remove (pendingPath "alice")) ⟨[wJob], [wJob]⟩ =
       .ok (wFs.remove (pendingPath "alice"), ⟨[wJob], [wJob]⟩)) :=
  ⟨⟨rfl, rfl, by decide⟩,
   C6_load_destructive "alice" "20240101_090000" wFs [wJob.toWire] [wJob]
     rfl rfl (by decide)⟩

/-- Acknowledging one job of an all-unprocessed list leaves, among the
unprocessed jobs, exactly the others in order. -/
theorem filter_markAt (js : List PrintJob) (i : Nat)
    (hall : ∀ j ∈ js, j.processed = false) :
    (markAt js i).filter (fun j => !j.processed) = js.eraseIdx i := by
  induction js generalizing i with
  | nil => simp [markAt]
  | cons a as ih =>
    have ha := hall a (List.mem_cons_self a as)
    have has : ∀ j ∈ as, j.processed = false :=
      fun j hj => hall j (List.mem_cons_of_mem a hj)
    cases i with
    | zero =>
      simp only [markAt, List.filter_cons, List.eraseIdx_cons_zero]
      simp only [show ({ a with processed := true } : PrintJob).processed = true
        from rfl, Bool.not_true, Bool.false_eq_true, if_false]
      exact List.filter_eq_self.mpr (fun j hj => by simp [has j hj])
    | succ n =>
      simp only [markAt, List.filter_cons, ha, Bool.not_false, if_true,
        List.eraseIdx_cons_succ]
      rw [ih n has]

/-- Serializing an all-unprocessed job list and parsing it back restores the
list. -/
theorem parseJobs_map_toWire (now : String) (js : List PrintJob)
    (hall : ∀ j ∈ js, j.processed = false) :
    parseJobs now (js.map PrintJob.toWire) = some js := by
  induction js with
  | nil => rfl
  | cons a as ih =>
    have ha := hall a (List.mem_cons_self a as)
    have has : ∀ j ∈ as, j.processed = false :=
      fun j hj => hall j (List.mem_cons_of_mem a hj)
    simp only [List.map_cons, parseJobs, from_dict_toWire, ih has]
    have hres : ({ a with processed := false } : PrintJob) = a := by
      cases a
      simp_all
    rw [hres]

/-- C7, confirmed: acknowledging one job of an all-unprocessed pending batch
rewrites the persisted pending list to exactly the wire records of the other
jobs, in order, and a fresh reload returns exactly those jobs — with jobs
1, 2, 3 pending, acknowledging the second and reloading yields jobs 1 and 3. -/
theorem C7_mark_processed (user now : String) (fs : Fs)
    (js evs : List PrintJob) (i : Nat)
    (hall : ∀ j ∈ js, j.processed = false)
    (hne : ∀ j ∈ js, j.file_path ≠ pendingPath user)
    (hex : ∀ j ∈ js, (fs j.file_path).isSome = true) :
    ∃ fs2,
      mark_job_processed user fs ⟨js, evs⟩ i true = (fs2, ⟨markAt js i, evs⟩) ∧
      pendingRecords fs2 user = (js.eraseIdx i).map PrintJob.toWire ∧
      ∃ fs3, load_pending_jobs user now fs2 initConsState =
        .ok (fs3, ⟨js.eraseIdx i, js.eraseIdx i⟩) := by
  have hfm := filter_markAt js i hall
  have hsub : js.eraseIdx i ⊆ js := List.eraseIdx_subset js i
  have hallE : ∀ j ∈ js.eraseIdx i, j.processed = false :=
    fun j hj => hall j (hsub hj)
  cases he : js.eraseIdx i with
  | nil =>
    refine ⟨fs.remove (pendingPath user), ?_, ?_, fs.remove (pendingPath user), ?_⟩
    · unfold mark_job_processed save_pending_jobs
      simp only [hfm, he]
      rfl
    · unfold pendingRecords
      rw [Fs.remove_self]
      simp
    · unfold load_pending_jobs
      simp only [Fs.remove_self]
      rfl
  | cons b bs =>
    have hne2 : ¬ (js.eraseIdx i).isEmpty := by
      rw [he]
      simp
    refine ⟨fs.write (pendingPath user)
        (.json (.arr ((js.eraseIdx i).map PrintJob.toWire))), ?_, ?_, ?_⟩
    · unfold mark_job_processed save_pending_jobs
      simp only [hfm, hne2, if_false]
      simp
    · unfold pendingRecords
      simp only [Fs.write_self]
      rw [he]
    · refine ⟨(fs.write (pendingPath user)
          (.json (.arr ((js.eraseIdx i).map PrintJob.toWire)))).remove
          (pendingPath user), ?_⟩
      unfold load_pending_jobs
      simp only [Fs.write_self]
      have hparse := parseJobs_map_toWire now (js.eraseIdx i) hallE
      have hkeep : keepJobs (fs.write (pendingPath user)
          (.json (.arr ((js.eraseIdx i).map PrintJob.toWire))))
          (js.eraseIdx i) = js.eraseIdx i := by
        refine List.filter_eq_self.mpr (fun j hj => ?_)
        rw [Fs.write_ne fs _ _ _ (hne j (hsub hj))]
        exact hex j (hsub hj)
      simp only [loadItems_ok _ now _ _ hparse initConsState]
      simp [initConsState, hkeep]
      exact he

/-- Witness for `C7_mark_processed`: three jobs pending, the second
acknowledged. -/
theorem C7_mark_processed_witness :
    ((∀ j ∈ [wJob1, wJob2, wJob3], j.processed = false) ∧
     (∀ j ∈ [wJob1, wJob2, wJob3], j.file_path ≠ pendingPath "alice") ∧
     (∀ j ∈ [wJob1, wJob2, wJob3], (wFs3 j.file_path).isSome = true)) ∧
    (∃ fs2,
      mark_job_processed "alice" wFs3 ⟨[wJob1, wJob2, wJob3], []⟩ 1 true =
        (fs2, ⟨markAt [wJob1, wJob2, wJob3] 1, []⟩) ∧
      pendingRecords fs2 "alice" =
        ([wJob1, wJob2, wJob3].eraseIdx 1).map PrintJob.toWire ∧
      ∃ fs3, load_pending_jobs "alice" "20240101_100000" fs2 initConsState =
        .ok (fs3, ⟨[wJob1, wJob2, wJob3].eraseIdx 1,
                   [wJob1, wJob2, wJob3].eraseIdx 1⟩)) :=
  ⟨⟨by decide, by decide, by decide⟩,
   C7_mark_processed "alice" "20240101_100000" wFs3 [wJob1, wJob2, wJob3]
     [] 1 (by decide) (by decide) (by decide)⟩

/-- C8, confirmed: on Consumer start, the persisted pending records whose
payload file exists are all emitted, in stored order, before any live-socket
job, entries whose payload file no longer exists are skipped without an event,
and — when every record is well formed — reconciliation never errors. -/
theorem C8_startup_order (user now : String) (fs : Fs) (ws : List Json)
    (js : List PrintJob) (conns : List (List (List Nat)))
    (hfile : fs (pendingPath user) = some (.json (.arr ws)))
    (hparse : parseJobs now ws = some js) :
    consumerStart user now fs conns =
      .ok (fs.remove (pendingPath user),
        ⟨keepJobs fs js ++ liveJobs now conns,
         keepJobs fs js ++ liveJobs now conns⟩) := by
  unfold consumerStart load_pending_jobs
  simp only [hfile]
  simp only [loadItems_ok fs now ws js hparse initConsState]
  rw [listenerRun_eq]
  simp [initConsState]

/-- Witness for `C8_startup_order`: one stored job and one live connection. -/
theorem C8_startup_order_witness :
    (wFs (pendingPath "alice") = some (.json (.arr [wJob.toWire])) ∧
     parseJobs "20240101_100000" [wJob.toWire] = some [wJob]) ∧
    consumerStart "alice" "20240101_100000" wFs [wConn] =
      .ok (wFs.remove (pendingPath "alice"),
        ⟨keepJobs wFs [wJob] ++ liveJobs "20240101_100000" [wConn],
         keepJobs wFs [wJob] ++ liveJobs "20240101_100000" [wConn]⟩) :=
  ⟨⟨rfl, rfl⟩,
   C8_startup_order "alice" "20240101_100000" wFs [wJob.toWire] [wJob]
     [wConn] rfl rfl⟩

/-- Reading a non-object JSON value with `PrintJob.from_dict` yields no job
(in the source, calling `.get` on a non-dict raises, and the caller
catches). -/
theorem from_dict_non_object (now : String) (j : Json) (h : j.isObj = false) :
    PrintJob.from_dict now j = none := by
  cases j with
  | obj d => simp [Json.isObj] at h
  | str s => rfl
  | int n => rfl
  | bool b => rfl
  | null => rfl
  | arr l => rfl

/-- C9, confirmed: a connection whose buffered bytes do not parse as a JSON
object raises no job event, adds nothing to the in-memory job list, is
closed, and the owning accept loop goes on to handle the other connections
exactly as if the malformed one had not occurred. -/
theorem C9_malformed_connection (now : String) (bad : List (List Nat))
    (hbad : ∀ j, bufferedParse bad = some j → j.isObj = false)
    (xs ys : List (List (List Nat))) (st : ConsState) :
    handle_connection now bad st = (st, true) ∧
    listenerRun now (xs ++ bad :: ys) st = listenerRun now (xs ++ ys) st := by
  have hmsg : connMessage now bad = none := by
    unfold connMessage
    cases hb : bufferedParse bad with
    | none => rfl
    | some j => simp [from_dict_non_object now j (hbad j hb)]
  constructor
  · unfold handle_connection
    rw [hmsg]
  · induction xs generalizing st with
    | nil =>
      rw [List.nil_append, List.nil_append, listenerRun_cons]
      have hstep : (handle_connection now bad st).1 = st := by
        unfold handle_connection
        rw [hmsg]
      rw [hstep]
    | cons x xs ih =>
      rw [List.cons_append, List.cons_append, listenerRun_cons,
        listenerRun_cons]
      exact ih _

/-- Witness for `C9_malformed_connection` at a concrete garbage payload. -/
theorem C9_malformed_connection_witness :
    (∀ j, bufferedParse [strBytes "garbage\n"] = some j → j.isObj = false) ∧
    (handle_connection "20240101_100000" [strBytes "garbage\n"] initConsState =
      (initConsState, true) ∧
     listenerRun "20240101_100000" ([wConn] ++ [strBytes "garbage\n"] :: [])
         initConsState =
       listenerRun "20240101_100000" ([wConn] ++ []) initConsState) :=
  have hb : ∀ j, bufferedParse [strBytes "garbage\n"] = some j →
      j.isObj = false := by
    intro j h
    rw [show bufferedParse [strBytes "garbage\n"] = none from rfl] at h
    cases h
  ⟨hb, C9_malformed_connection "20240101_100000" [strBytes "garbage\n"] hb
    [wConn] [] initConsState⟩

/-- C1, confirmed: a valid submission with the Notification Channel
unreachable, followed by a same-process `loadPending` for that user, yields
exactly one pending record, whose payload file holds bytes identical to the
input stream (hence of the same size `N`). -/
theorem C1_submit_then_load (env : ProdEnv) (fs : Fs)
    (jobId user title : String) (copies : Int) (options : String)
    (data : List Nat) (now2 : String)
    (hunix : env.unixDeliver = false) (htcp : env.tcpDeliver = false)
    (hw : env.payloadWriteOk = true) (hpw : env.pendingWriteOk = true)
    (hpend : fs (pendingPath user) = none) :
    ∃ j : PrintJob, ∃ fs2 : Fs,
      process_job env fs jobId user title copies options (.stdin data) =
        ⟨0, false, fs2, true⟩ ∧
      load_pending_jobs user now2 fs2 initConsState =
        .ok (fs2.remove (pendingPath user), ⟨[j], [j]⟩) ∧
      j.user = user ∧
      j.file_path = jobPath user env.now jobId title ∧
      fs2 j.file_path = some (.bytes data) ∧
      (∃ b, fs2 j.file_path = some (.bytes b) ∧ b.length = data.length) := by
  have hnepp : jobPath user env.now jobId title ≠ pendingPath user :=
    jobPath_ne_pendingPath user env.now jobId title user
  refine ⟨⟨jobId, user, title, copies, options,
      jobPath user env.now jobId title, env.now, false⟩,
    (fs.write (jobPath user env.now jobId title) (.bytes data)).write
      (pendingPath user)
      (.json (.arr [PrintJob.toWire ⟨jobId, user, title, copies, options,
        jobPath user env.now jobId title, env.now, false⟩])),
    ?_, ?_, rfl, rfl, ?_, ?_⟩
  case _ =>
    have hcontent : payloadContent env fs (.stdin data) = some data := by
      unfold payloadContent
      rw [hw]
      simp only [if_true]
      rw [copyChunks_eq]
    have hnot : notify_gui env = false := by
      simp [notify_gui, hunix, htcp]
    have hread : readPendingForAppend
        (fs.write (jobPath user env.now jobId title) (.bytes data)) user =
        some [] := by
      unfold readPendingForAppend
      rw [Fs.write_ne fs _ _ _ (Ne.symm hnepp), hpend]
    unfold process_job
    simp only [hcontent, hnot, Bool.false_eq_true, if_false]
    unfold start_gui_with_job
    rw [hread, hpw]
    simp only [if_true, List.nil_append]
    rfl
  case _ =>
    have hparse : parseJobs now2
        [PrintJob.toWire ⟨jobId, user, title, copies, options,
          jobPath user env.now jobId title, env.now, false⟩] =
        some [⟨jobId, user, title, copies, options,
          jobPath user env.now jobId title, env.now, false⟩] := rfl
    have hfile2 : ((fs.write (jobPath user env.now jobId title)
        (.bytes data)).write (pendingPath user)
        (.json (.arr [PrintJob.toWire ⟨jobId, user, title, copies, options,
          jobPath user env.now jobId title, env.now, false⟩])))
        (pendingPath user) =
        some (.json (.arr [PrintJob.toWire ⟨jobId, user, title, copies,
          options, jobPath user env.now jobId title, env.now, false⟩])) :=
      Fs.write_self _ _ _
    have hpay : ((fs.write (jobPath user env.now jobId title)
        (.bytes data)).write (pendingPath user)
        (.json (.arr [PrintJob.toWire ⟨jobId, user, title, copies, options,
          jobPath user env.now jobId title, env.now, false⟩])))
        (jobPath user env.now jobId title) = some (.bytes data) := by
      rw [Fs.write_ne _ _ _ _ hnepp]
      exact Fs.write_self _ _ _
    unfold load_pending_jobs
    simp only [hfile2]
    simp only [loadItems_ok _ now2 _ _ hparse initConsState]
    have hkeep : keepJobs ((fs.write (jobPath user env.now jobId title)
        (.bytes data)).write (pendingPath user)
        (.json (.arr [PrintJob.toWire ⟨jobId, user, title, copies, options,
          jobPath user env.now jobId title, env.now, false⟩])))
        [⟨jobId, user, title, copies, options,
          jobPath user env.now jobId title, env.now, false⟩] =
        [⟨jobId, user, title, copies, options,
          jobPath user env.now jobId title, env.now, false⟩] := by
      refine List.filter_eq_self.mpr (fun j hj => ?_)
      rw [List.mem_singleton] at hj
      subst hj
      simp only [hpay, Option.isSome_some]
    rw [hkeep]
    simp [initConsState]
  case _ =>
    show ((fs.write (jobPath user env.now jobId title)
        (.bytes data)).write (pendingPath user) _)
        (jobPath user env.now jobId title) = some (.bytes data)
    rw [Fs.write_ne _ _ _ _ hnepp]
    exact Fs.write_self _ _ _
  case _ =>
    refine ⟨data, ?_, rfl⟩
    show ((fs.write (jobPath user env.now jobId title)
        (.bytes data)).write (pendingPath user) _)
        (jobPath user env.now jobId title) = some (.bytes data)
    rw [Fs.write_ne _ _ _ _ hnepp]
    exact Fs.write_self _ _ _

/-- Witness for `C1_submit_then_load` at a concrete submission on an empty
spool. -/
theorem C1_submit_then_load_witness :
    (wEnv.unixDeliver = false ∧ wEnv.tcpDeliver = false ∧
     wEnv.payloadWriteOk = true ∧ wEnv.pendingWriteOk = true ∧
     (fun _ => none : Fs) (pendingPath "alice") = none) ∧
    (∃ j : PrintJob, ∃ fs2 : Fs,
      process_job wEnv (fun _ => none) "7" "alice" "Invoice #42/2024" 2 ""
          (.stdin [37, 80, 68, 70]) = ⟨0, false, fs2, true⟩ ∧
      load_pending_jobs "alice" "20240101_100000" fs2 initConsState =
        .ok (fs2.remove (pendingPath "alice"), ⟨[j], [j]⟩) ∧
      j.user = "alice" ∧
      j.file_path = jobPath "alice" wEnv.now "7" "Invoice #42/2024" ∧
      fs2 j.file_path = some (.bytes [37, 80, 68, 70]) ∧
      (∃ b, fs2 j.file_path = some (.bytes b) ∧
        b.length = ([37, 80, 68, 70] : List Nat).length)) :=
  ⟨⟨rfl, rfl, rfl, rfl, rfl⟩,
   C1_submit_then_load wEnv (fun _ => none) "7" "alice" "Invoice #42/2024" 2
     "" [37, 80, 68, 70] "20240101_100000" rfl rfl rfl rfl rfl⟩

/-- C4, counterexample: two single-chunk streams agreeing on every byte up to
the first newline, where one parses to a job and the other does not — the
receiver parses the whole buffer, so bytes after the first newline do affect
the outcome. -/
theorem C4_delimiter_counterexample :
    bytesUpToFirstNewline
        (recvData [strBytes "\x7b\x22job_id\x22: \x22j1\x22\x7d\n"]) =
      bytesUpToFirstNewline
        (recvData [strBytes "\x7b\x22job_id\x22: \x22j1\x22\x7d\nX"]) ∧
    (connMessage "T" [strBytes "\x7b\x22job_id\x22: \x22j1\x22\x7d\n"]).isSome
      = true ∧
    connMessage "T" [strBytes "\x7b\x22job_id\x22: \x22j1\x22\x7d\nX"] =
      none := by
  refine ⟨by decide, by decide, by decide⟩

/-- The receive loop reaches exactly the first chunk that brings a newline
into the buffer, accumulating every chunk before it whole. -/
theorem recvLoop_spec (pres : List (List Nat)) (c : List Nat)
    (rest : List (List Nat)) (acc : List Nat)
    (h1 : ∀ p ∈ pres, p ≠ []) (h2 : (10 : Nat) ∉ acc ++ pres.flatten)
    (h3 : c ≠ []) (h4 : (10 : Nat) ∈ (acc ++ pres.flatten) ++ c) :
    recvLoop acc (pres ++ c :: rest) = (acc ++ pres.flatten) ++ c := by
  induction pres generalizing acc with
  | nil =>
    simp only [List.flatten_nil, List.append_nil] at h2 h4 ⊢
    rw [List.nil_append]
    simp only [recvLoop]
    rw [if_neg h3, if_pos h4]
  | cons p ps ih =>
    have hp : p ≠ [] := h1 p (List.mem_cons_self p ps)
    have h1p : ∀ q ∈ ps, q ≠ [] :=
      fun q hq => h1 q (List.mem_cons_of_mem p hq)
    have h2p : (10 : Nat) ∉ (acc ++ p) ++ ps.flatten := by
      simp only [List.flatten_cons, List.mem_append] at h2 ⊢
      tauto
    have h4p : (10 : Nat) ∈ ((acc ++ p) ++ ps.flatten) ++ c := by
      simp only [List.flatten_cons, List.mem_append] at h4 ⊢
      tauto
    have hnl : ¬ ((10 : Nat) ∈ acc ++ p) := by
      simp only [List.flatten_cons, List.mem_append] at h2 ⊢
      tauto
    rw [List.cons_append]
    simp only [recvLoop]
    rw [if_neg hp, if_neg hnl, ih (acc ++ p) h1p h2p h4p]
    simp [List.flatten_cons, List.append_assoc]

/-- C4, amended: the receiver reads chunks until the buffer first contains a
newline (or the peer closes) and then parses the entire buffered byte
sequence, whitespace-stripped, as one JSON object — bytes in chunks after the
one that brought the newline never matter, but bytes after the newline inside
that same chunk are part of what is parsed and can change the outcome. -/
theorem C4_receive_amended (now : String) (pres : List (List Nat))
    (c : List Nat) (rest : List (List Nat))
    (h1 : ∀ p ∈ pres, p ≠ []) (h2 : (10 : Nat) ∉ pres.flatten)
    (h3 : c ≠ []) (h4 : (10 : Nat) ∈ pres.flatten ++ c) :
    recvData (pres ++ c :: rest) = pres.flatten ++ c ∧
    connMessage now (pres ++ c :: rest) = connMessage now (pres ++ [c]) := by
  have e1 : recvData (pres ++ c :: rest) = pres.flatten ++ c := by
    unfold recvData
    have h := recvLoop_spec pres c rest [] h1 (by simpa using h2) h3
      (by simpa using h4)
    simpa using h
  have e2 : recvData (pres ++ [c]) = pres.flatten ++ c := by
    unfold recvData
    have h := recvLoop_spec pres c [] [] h1 (by simpa using h2) h3
      (by simpa using h4)
    simpa using h
  refine ⟨e1, ?_⟩
  unfold connMessage bufferedParse
  rw [e1, e2]

/-- Witness for `C4_receive_amended`: a message split across two chunks, the
newline arriving at the end of the second, and a third chunk that is never
read. -/
theorem C4_receive_amended_witness :
    ((∀ p ∈ [strBytes "\x7b\x22job_id\x22"], p ≠ []) ∧
     (10 : Nat) ∉ ([strBytes "\x7b\x22job_id\x22"] :
        List (List Nat)).flatten ∧
     strBytes ": \x22j\x22\x7d\n" ≠ [] ∧
     (10 : Nat) ∈ ([strBytes "\x7b\x22job_id\x22"] :
        List (List Nat)).flatten ++ strBytes ": \x22j\x22\x7d\n") ∧
    (recvData ([strBytes "\x7b\x22job_id\x22"] ++
        strBytes ": \x22j\x22\x7d\n" :: [strBytes "XYZ"]) =
      ([strBytes "\x7b\x22job_id\x22"] : List (List Nat)).flatten ++
        strBytes ": \x22j\x22\x7d\n" ∧
     connMessage "T" ([strBytes "\x7b\x22job_id\x22"] ++
        strBytes ": \x22j\x22\x7d\n" :: [strBytes "XYZ"]) =
       connMessage "T" ([strBytes "\x7b\x22job_id\x22"] ++
        [strBytes ": \x22j\x22\x7d\n"])) :=
  ⟨⟨by decide, by decide, by decide, by decide⟩,
   C4_receive_amended "T" [strBytes "\x7b\x22job_id\x22"]
     (strBytes ": \x22j\x22\x7d\n") [strBytes "XYZ"]
     (by decide) (by decide) (by decide) (by decide)⟩

/-- C5, amended: the Producer returns 1 with no notification attempt and no
pending record on a payload-write failure, returns 1 on a wrong argument
count, and returns 0 whenever the payload is durably stored and either live
delivery succeeds or the pending-list append succeeds (a failed Consumer
launch never changes the status) — but a pending-list write failure after
failed delivery makes the invocation exit 1. -/
theorem C5_exit_codes_amended (env : ProdEnv) (fs : Fs)
    (jobId user title : String) (copies : Int) (options : String)
    (src : PayloadSource) (stdinData : List Nat) :
    (env.payloadWriteOk = false →
      process_job env fs jobId user title copies options src =
        ⟨1, false, fs, false⟩) ∧
    (∀ argv : List String, argv.length ≠ 1 → argv.length < 6 →
      backendMain env fs argv stdinData = (1, fs)) ∧
    (∀ payload, payloadContent env fs src = some payload →
      (notify_gui env = true ∨
        (env.pendingWriteOk = true ∧ readPendingForAppend fs user ≠ none)) →
      (process_job env fs jobId user title copies options src).code = 0 ∧
      (process_job env fs jobId user title copies options src).raised =
        false) := by
  refine ⟨?_, ?_, ?_⟩
  · intro h
    unfold process_job payloadContent
    rw [h]
    simp only [Bool.false_eq_true, if_false]
  · intro argv hne hlt
    unfold backendMain
    rw [if_neg hne, if_pos hlt]
  · intro payload hpc hor
    unfold process_job
    simp only [hpc]
    cases hng : notify_gui env with
    | true =>
      simp only [if_true]
      exact ⟨by trivial, by trivial⟩
    | false =>
      rcases hor with hor | ⟨hpw, hread⟩
      · rw [hng] at hor
        cases hor
      · obtain ⟨l, hl⟩ : ∃ l, readPendingForAppend fs user = some l := by
          cases hra : readPendingForAppend fs user with
          | none => exact absurd hra hread
          | some l => exact ⟨l, rfl⟩
        have hl1 : readPendingForAppend
            (fs.write (jobPath user env.now jobId title) (.bytes payload))
            user = some l := by
          unfold readPendingForAppend at hl ⊢
          rw [Fs.write_ne _ _ _ _
            (Ne.symm (jobPath_ne_pendingPath user env.now jobId title user))]
          exact hl
        simp only [Bool.false_eq_true, if_false]
        unfold start_gui_with_job
        rw [hl1, hpw]
        simp only [if_true]
        exact ⟨by trivial, by trivial⟩

/-- C5, counterexample: with delivery unreachable and the pending-list write
failing, the payload is durably stored yet the invocation exits 1 — "returns
0 whenever the payload is durably stored" does not hold as stated. -/
theorem C5_exit_status_counterexample :
    (process_job wEnvF (fun _ => none) "7" "alice" "doc" 1 ""
        (.stdin [1, 2, 3])).fs
        (jobPath "alice" "20240101_090000" "7" "doc") =
      some (.bytes [1, 2, 3]) ∧
    (backendMain wEnvF (fun _ => none)
        ["open-pdf-creator", "7", "alice", "doc", "1", ""] [1, 2, 3]).1 =
      1 := by
  have hcontent : payloadContent wEnvF (fun _ => none) (.stdin [1, 2, 3]) =
      some [1, 2, 3] := by
    unfold payloadContent
    rw [show wEnvF.payloadWriteOk = true from rfl]
    simp only [if_true]
    rw [copyChunks_eq]
  have hread : readPendingForAppend
      (Fs.write (fun _ => none)
        (jobPath "alice" wEnvF.now "7" "doc") (.bytes [1, 2, 3]))
      "alice" = some [] := by
    unfold readPendingForAppend
    rw [Fs.write_ne _ _ _ _ (Ne.symm
      (jobPath_ne_pendingPath "alice" wEnvF.now "7" "doc" "alice"))]
  have hrun : process_job wEnvF (fun _ => none) "7" "alice" "doc" 1 ""
      (.stdin [1, 2, 3]) =
      ⟨0, true, Fs.write (fun _ => none)
        (jobPath "alice" wEnvF.now "7" "doc") (.bytes [1, 2, 3]),
       true⟩ := by
    unfold process_job
    simp only [hcontent]
    rw [show notify_gui wEnvF = false from rfl]
    simp only [Bool.false_eq_true, if_false]
    unfold start_gui_with_job
    rw [hread]
    rfl
  refine ⟨?_, ?_⟩
  · rw [hrun]
    show Fs.write (fun _ => none)
        (jobPath "alice" wEnvF.now "7" "doc") (.bytes [1, 2, 3])
        (jobPath "alice" "20240101_090000" "7" "doc") =
      some (.bytes [1, 2, 3])
    exact Fs.write_self _ _ _
  · unfold backendMain
    rw [if_neg (by decide), if_neg (by decide)]
    dsimp only
    rw [show (pyInt "1").getD 1 = (1 : Int) from rfl]
    rw [hrun]
    rfl

/-- Witness for `C5_exit_codes_amended`: a stored payload with successful
live delivery exits 0. -/
theorem C5_exit_codes_amended_witness :
    (payloadContent wEnvD (fun _ => none) (.stdin [9]) = some [9] ∧
     (notify_gui wEnvD = true ∨ (wEnvD.pendingWriteOk = true ∧
        readPendingForAppend (fun _ => none) "alice" ≠ none))) ∧
    ((process_job wEnvD (fun _ => none) "7" "alice" "doc" 1 ""
        (.stdin [9])).code = 0 ∧
     (process_job wEnvD (fun _ => none) "7" "alice" "doc" 1 ""
        (.stdin [9])).raised = false) :=
  have hp : payloadContent wEnvD (fun _ => none) (.stdin [9]) = some [9] := by
    unfold payloadContent
    rw [show wEnvD.payloadWriteOk = true from rfl]
    simp only [if_true]
    rw [copyChunks_eq]
  ⟨⟨hp, Or.inl rfl⟩,
   (C5_exit_codes_amended wEnvD (fun _ => none) "7" "alice" "doc" 1 ""
     (.stdin [9]) []).2.2 [9] hp (Or.inl rfl)⟩
